import Mathlib

/-!
Shallow embedding of the agent module of the repository (an AI chatbot
front-end for a task-management backend).  The module has three parts:

* `identifyMcpToolAndParams` — the keyword intent classifier,
* `executeMcpTool` — the HTTP dispatcher (modelled over an explicit
  backend response; the exceptions Python would raise are modelled by
  `Except`),
* `process` — the orchestrator with its blanket exception handler.

Strings are modelled as `List Char`.  Python `str.lower` is modelled on
the ASCII range (all keywords and fixed strings in the program are
ASCII); Python whitespace for `str.strip` is modelled by the six ASCII
whitespace characters.
-/

/-- Coerce a Lean string literal to the `List Char` representation used
throughout the development. -/
def sl (s : String) : List Char := s.toList

/-- Python `needle in hay` substring test (contiguous). -/
def pyIn (needle : List Char) : List Char → Bool
  | [] => needle.isPrefixOf []
  | c :: t => needle.isPrefixOf (c :: t) || pyIn needle t

/-- The suffix of `hay` after the first occurrence of `needle`; models
`hay.split(needle, 1)[1]` when `needle in hay` holds (the classifier only
evaluates it under that guard). -/
def afterFirst (needle : List Char) : List Char → List Char
  | [] => []
  | c :: t =>
    if needle.isPrefixOf (c :: t) then (c :: t).drop needle.length
    else afterFirst needle t

/-- The ASCII whitespace characters stripped by Python `str.strip()`. -/
def pySpace (c : Char) : Bool :=
  c == ' ' || c == '\t' || c == '\n' || c == '\r' || c == '\x0b' || c == '\x0c'

/-- Python `str.strip()`. -/
def pyStrip (s : List Char) : List Char :=
  ((s.dropWhile pySpace).reverse.dropWhile pySpace).reverse

/-- Python `str.removeprefix(p)`. -/
def dropPre (s p : List Char) : List Char :=
  if p.isPrefixOf s then s.drop p.length else s

/-- Python `str.lower()` on one character, ASCII range. -/
def pyToLower (c : Char) : Char :=
  if 65 ≤ c.toNat ∧ c.toNat ≤ 90 then Char.ofNat (c.toNat + 32) else c

/-- Python `str.lower()`, ASCII range. -/
def pyLower (s : List Char) : List Char := s.map pyToLower

/-- The first maximal run of decimal digits in `s`, when one exists;
models `re.findall(..., s)[0]` for the digit-run pattern. -/
def firstDigitRun : List Char → Option (List Char)
  | [] => none
  | c :: t =>
    if c.isDigit then some (c :: t.takeWhile Char.isDigit)
    else firstDigitRun t

/-- Python `int` on a string of decimal digits. -/
def digitsToNat (ds : List Char) : Nat :=
  ds.foldl (fun a c => 10 * a + (c.toNat - 48)) 0

/-- `int(nums[0]) if nums else 1`: the number the classifier extracts for
delete/update requests. -/
def firstNumDefault1 (s : List Char) : Nat :=
  match firstDigitRun s with
  | some ds => digitsToNat ds
  | none => 1

/-- The parameter dictionaries the agent builds.  Each Python dict in the
module uses a subset of these six keys; an absent key is `none`. -/
structure ParamDict where
  title : Option (List Char)
  description : Option (List Char)
  task_id : Option Nat
  status : Option (List Char)
  user_id : Option (List Char)
  session_token : Option (List Char)
deriving DecidableEq, Repr

/-- The keyword list of the create branch, in source order. -/
def createKws : List (List Char) := [sl ("add"), sl ("create"), sl ("make"), sl ("new")]

/-- The keyword list of the list branch, in source order. -/
def listKws : List (List Char) :=
  [sl ("list"), sl ("show"), sl ("view"), sl ("display"), sl ("see"), sl ("check")]

/-- The keyword list of the delete branch, in source order. -/
def deleteKws : List (List Char) := [sl ("delete"), sl ("remove")]

/-- The keyword list of the update branch, in source order. -/
def updateKws : List (List Char) := [sl ("update"), sl ("complete"), sl ("done")]

/-- The stripped remainder after the matched create keyword `w`:
`text.split(w, 1)[1].strip().removeprefix("task").removeprefix("to").strip()`. -/
def strippedRemainder (text w : List Char) : List Char :=
  pyStrip (dropPre (dropPre (pyStrip (afterFirst w text)) (sl ("task"))) (sl ("to")))

/-- The create-branch title: the stripped remainder, or the full raw
input when that remainder is empty (`title or user_input`). -/
def createTitle (text raw w : List Char) : List Char :=
  if strippedRemainder text w = [] then raw else strippedRemainder text w

/-- A dict `{"title": t}`. -/
def mkTitleParams (t : List Char) : ParamDict := ⟨some t, none, none, none, none, none⟩

/-- A dict `{"user_id": u}`. -/
def mkUserParams (u : List Char) : ParamDict := ⟨none, none, none, none, some u, none⟩

/-- A dict `{"task_id": n}`. -/
def mkTaskIdParams (n : Nat) : ParamDict := ⟨none, none, some n, none, none, none⟩

/-- A dict `{"task_id": n, "status": "completed"}`. -/
def mkTaskIdStatusParams (n : Nat) : ParamDict :=
  ⟨none, none, some n, some (sl ("completed")), none, none⟩

/-- The `for w in [...]` loop of the create branch: returns on the first
keyword contained in `text`. -/
def findCreate (text raw : List Char) : List (List Char) → Option (String × ParamDict)
  | [] => none
  | w :: ws =>
    if pyIn w text then some ("create_task", mkTitleParams (createTitle text raw w))
    else findCreate text raw ws

/-- The intent classifier `_identify_mcp_tool_and_params(user_input, user_id)`:
an ordered first-match chain over the lowercased input. -/
def identifyMcpToolAndParams (user_input user_id : List Char) :
    Option (String × ParamDict) :=
  let text := pyLower user_input
  match (if createKws.any (fun w => pyIn w text)
         then findCreate text user_input createKws else none) with
  | some r => some r
  | none =>
    if listKws.any (fun w => pyIn w text) || pyIn (sl ("my tasks")) text then
      some ("get_tasks", mkUserParams user_id)
    else if deleteKws.any (fun w => pyIn w text) then
      some ("delete_task", mkTaskIdParams (firstNumDefault1 user_input))
    else if updateKws.any (fun w => pyIn w text) then
      some ("update_task", mkTaskIdStatusParams (firstNumDefault1 user_input))
    else none

example : identifyMcpToolAndParams (sl ("add task buy milk")) (sl ("u1")) =
    some ("create_task", mkTitleParams (sl ("buy milk"))) := by decide

example : identifyMcpToolAndParams (sl ("delete task 42")) (sl ("u1")) =
    some ("delete_task", mkTaskIdParams 42) := by decide

example : identifyMcpToolAndParams (sl ("hello there")) (sl ("u1")) = none := by decide

/-- An apostrophe character, kept out of string literals. -/
def apos : Char := Char.ofNat 39

/-- The Python exceptions the embedded code can raise, plus `other` for
exceptions of the external collaborators (network, model API). -/
inductive PyExn where
  | keyError (key : String)
  | jsonDecodeError (msg : List Char)
  | other (msg : List Char)
deriving DecidableEq, Repr

/-- Python `str(e)`; `str(KeyError(k))` is the key in single quotes. -/
def PyExn.str : PyExn → List Char
  | .keyError k => apos :: sl k ++ [apos]
  | .jsonDecodeError m => m
  | .other m => m

/-- A backend HTTP response as the dispatcher observes it: status code,
body text, and the body decoded as a JSON array when it is one
(`none` means `r.json()` raises; the backend task list is modelled as a
list whose elements the code never inspects). -/
structure HttpResponse where
  status : Nat
  text : List Char
  jsonTasks : Option (List Unit)
deriving DecidableEq, Repr

/-- The headers built at the top of `_execute_mcp_tool`: always
`Content-Type`, plus `Authorization: Bearer <token>` when the
`session_token` entry is present and non-empty (lines 129–132). -/
def mcpHeaders (params : ParamDict) : List (String × List Char) :=
  let session_token := params.session_token.getD []
  if session_token ≠ [] then
    [("Content-Type", sl ("application/json")),
     ("Authorization", sl ("Bearer ") ++ session_token)]
  else
    [("Content-Type", sl ("application/json"))]

/-- The single HTTP request each dispatcher branch issues: method, URL,
headers.  `none` when no request is sent (unknown tool, or Python raised
`KeyError` while building the URL). -/
structure HttpRequest where
  method : String
  url : List Char
  headers : List (String × List Char)
deriving DecidableEq, Repr

/-- The request `_execute_mcp_tool` sends for a given tool name and
parameter dict, over backend base URL `base`. -/
def mcpRequest (tool_name : String) (params : ParamDict) (base : List Char) :
    Option HttpRequest :=
  if tool_name = "create_task" then
    some ⟨"POST", base ++ sl ("/api/tasks/"), mcpHeaders params⟩
  else if tool_name = "get_tasks" then
    some ⟨"GET", base ++ sl ("/api/tasks/"), mcpHeaders params⟩
  else if tool_name = "update_task" then
    match params.task_id with
    | some i => some ⟨"PUT", base ++ sl ("/api/tasks/") ++ sl (toString i), mcpHeaders params⟩
    | none => none
  else if tool_name = "delete_task" then
    match params.task_id with
    | some i => some ⟨"DELETE", base ++ sl ("/api/tasks/") ++ sl (toString i), mcpHeaders params⟩
    | none => none
  else none

/-- The dispatcher `_execute_mcp_tool(tool_name, params)`, evaluated
against the backend response `resp`.  `Except.error` models a raised
Python exception: `params["task_id"]` raises `KeyError` when the key is
absent, and `r.json()` raises when the body is not valid JSON. -/
def executeMcpTool (tool_name : String) (params : ParamDict) (resp : HttpResponse) :
    Except PyExn (List Char) :=
  if tool_name = "create_task" then
    .ok (if resp.status = 200 ∨ resp.status = 201
         then sl ("Task added successfully.") else resp.text)
  else if tool_name = "get_tasks" then
    if resp.status = 200 then
      match resp.jsonTasks with
      | none => .error (.jsonDecodeError (sl ("Expecting value")))
      | some tasks =>
        .ok (if tasks = [] then sl ("No tasks found for you. Feel free to add one!")
             else resp.text)
    else .ok resp.text
  else if tool_name = "update_task" then
    match params.task_id with
    | none => .error (.keyError "task_id")
    | some _ =>
      .ok (if resp.status = 200 then sl ("Task updated successfully.") else resp.text)
  else if tool_name = "delete_task" then
    match params.task_id with
    | none => .error (.keyError "task_id")
    | some _ =>
      .ok (if resp.status = 200 then sl ("Task deleted successfully.") else resp.text)
  else .ok (sl ("Unknown action"))

/-- A tool-call audit record `{"name": ..., "arguments": ...}`. -/
structure ToolCall where
  name : String
  arguments : ParamDict
deriving DecidableEq, Repr

/-- `params["session_token"] = auth_token or ""`. -/
def setSessionToken (p : ParamDict) (t : List Char) : ParamDict :=
  ⟨p.title, p.description, p.task_id, p.status, p.user_id, some t⟩

/-- The f-string prompt of the tool path. -/
def toolPrompt (user_input tool_result : List Char) : List Char :=
  sl ("\nUser request: \"") ++ user_input ++ sl ("\"\n\nTool result:\n") ++
    tool_result ++ sl ("\n\nReply politely and clearly to the user.\n")

/-- The f-string prompt of the chat path. -/
def chatPrompt (system_prompt user_input : List Char) : List Char :=
  sl ("\n") ++ system_prompt ++ sl ("\n\nUser said: \"") ++ user_input ++ sl ("\"\n")

/-- The fixed text of the apology reply before `str(e)` is appended. -/
def apologyMsgStart : List Char :=
  sl ("I") ++ [apos] ++ sl ("m sorry, I encountered an error: ")

/-- The body of `Agent.process` inside its `try`: classification, the
optional tool execution, and the model call (`llm`).  An `Except.error`
is an exception escaping to the top-level handler. -/
def processInner (system_prompt user_input user_id : List Char)
    (auth_token : Option (List Char)) (resp : HttpResponse)
    (llm : List Char → Except PyExn (List Char)) :
    Except PyExn (List Char × List ToolCall) :=
  match identifyMcpToolAndParams user_input user_id with
  | some (tool_name, params0) =>
    let params := setSessionToken params0 (auth_token.getD [])
    let tool_call : ToolCall := ⟨tool_name, params⟩
    match executeMcpTool tool_name params resp with
    | .error e => .error e
    | .ok tool_result =>
      match llm (toolPrompt user_input tool_result) with
      | .error e => .error e
      | .ok reply => .ok (reply, [tool_call])
  | none =>
    match llm (chatPrompt system_prompt user_input) with
    | .error e => .error e
    | .ok reply => .ok (reply, [])

/-- `Agent.process` with its top-level `except` clause: any exception
becomes the apologetic reply with an empty tool-call list. -/
def process (system_prompt user_input user_id : List Char)
    (auth_token : Option (List Char)) (resp : HttpResponse)
    (llm : List Char → Except PyExn (List Char)) :
    List Char × List ToolCall :=
  match processInner system_prompt user_input user_id auth_token resp llm with
  | .ok r => r
  | .error e => (apologyMsgStart ++ PyExn.str e, [])

/-! ### Supporting lemmas -/

theorem pyIn_ne_nil {w hay : List Char} (hw : w ≠ []) (h : pyIn w hay = true) :
    hay ≠ [] := by
  cases hay with
  | nil =>
    cases w with
    | nil => exact absurd rfl hw
    | cons c t => simp [pyIn, List.isPrefixOf] at h
  | cons c t => simp

theorem findCreate_eq (text raw : List Char) (ws : List (List Char)) :
    findCreate text raw ws =
      (ws.find? (fun w => pyIn w text)).map
        (fun w => ("create_task", mkTitleParams (createTitle text raw w))) := by
  induction ws with
  | nil => rfl
  | cons w ws ih =>
    by_cases h : pyIn w text
    · simp [findCreate, h]
    · simp [findCreate, h, ih]

theorem identify_create (ui uid : List Char)
    (h : createKws.any (fun w => pyIn w (pyLower ui)) = true) :
    ∃ w, createKws.find? (fun w => pyIn w (pyLower ui)) = some w ∧
      identifyMcpToolAndParams ui uid =
        some ("create_task", mkTitleParams (createTitle (pyLower ui) ui w)) := by
  obtain ⟨w, hw⟩ : ∃ w, createKws.find? (fun w => pyIn w (pyLower ui)) = some w := by
    cases hf : createKws.find? (fun w => pyIn w (pyLower ui)) with
    | none =>
      obtain ⟨x, hx, hpx⟩ := List.any_eq_true.mp h
      exact absurd hpx (by simpa using List.find?_eq_none.mp hf x hx)
    | some w => exact ⟨w, rfl⟩
  refine ⟨w, hw, ?_⟩
  simp [identifyMcpToolAndParams, h, findCreate_eq, hw]

theorem identify_no_create {ui uid : List Char}
    (h : createKws.any (fun w => pyIn w (pyLower ui)) = false) :
    identifyMcpToolAndParams ui uid =
      (if (listKws.any (fun w => pyIn w (pyLower ui)) ||
            pyIn (sl ("my tasks")) (pyLower ui)) = true then
        some ("get_tasks", mkUserParams uid)
      else if deleteKws.any (fun w => pyIn w (pyLower ui)) = true then
        some ("delete_task", mkTaskIdParams (firstNumDefault1 ui))
      else if updateKws.any (fun w => pyIn w (pyLower ui)) = true then
        some ("update_task", mkTaskIdStatusParams (firstNumDefault1 ui))
      else none) := by
  simp [identifyMcpToolAndParams, h]

theorem afterFirst_decomp {w : List Char} (hw : w ≠ []) :
    ∀ {hay : List Char}, pyIn w hay = true →
      ∃ pre, hay = pre ++ w ++ afterFirst w hay ∧ pyIn w pre = false := by
  intro hay
  induction hay with
  | nil => intro h; exact absurd rfl (pyIn_ne_nil hw h)
  | cons c t ih =>
    intro h
    by_cases hp : w.isPrefixOf (c :: t)
    · refine ⟨[], ?_, ?_⟩
      · obtain ⟨s, hs⟩ : w <+: (c :: t) := by simpa using hp
        simp only [afterFirst, if_pos hp, List.nil_append]
        rw [← hs, List.drop_left]
      · cases w with
        | nil => exact absurd rfl hw
        | cons a b => rfl
    · have hpy : pyIn w t = true := by
        cases hq : pyIn w t with
        | false => exfalso; rw [pyIn, hq] at h; simp [hp] at h
        | true => rfl
      obtain ⟨pre, hpre, hnotin⟩ := ih hpy
      refine ⟨c :: pre, ?_, ?_⟩
      · simp only [afterFirst, if_neg hp, List.cons_append]
        exact congrArg (c :: ·) hpre
      · rw [pyIn, hnotin]
        have : w.isPrefixOf (c :: pre) = false := by
          cases hq : w.isPrefixOf (c :: pre) with
          | false => rfl
          | true =>
            exfalso
            apply hp
            have h1 : w <+: (c :: pre) := by simpa using hq
            have h2 : (c :: pre) <+: (c :: t) := by
              rw [hpre]
              exact ⟨w ++ afterFirst w t, by simp⟩
            simpa using h1.trans h2
        simp [this]

theorem toNat_ofNat_add32 {n : Nat} (h1 : 65 ≤ n) (h2 : n ≤ 90) :
    (Char.ofNat (n + 32)).toNat = n + 32 := by
  interval_cases n <;> decide

theorem pyToLower_fix (c : Char) : pyToLower (pyToLower c) = pyToLower c := by
  unfold pyToLower
  by_cases h : 65 ≤ c.toNat ∧ c.toNat ≤ 90
  · rw [if_pos h]
    have ht := toNat_ofNat_add32 h.1 h.2
    have hc : ¬ (65 ≤ (Char.ofNat (c.toNat + 32)).toNat ∧
        (Char.ofNat (c.toNat + 32)).toNat ≤ 90) := by
      rw [ht]; omega
    rw [if_neg hc]
  · rw [if_neg h, if_neg h]

theorem mem_afterFirst {c : Char} {w : List Char} :
    ∀ {hay : List Char}, c ∈ afterFirst w hay → c ∈ hay := by
  intro hay
  induction hay with
  | nil => intro h; simp [afterFirst] at h
  | cons a t ih =>
    intro h
    rw [afterFirst] at h
    split at h
    · exact List.mem_of_mem_drop h
    · exact List.mem_cons_of_mem a (ih h)

theorem mem_pyStrip {c : Char} {s : List Char} (h : c ∈ pyStrip s) : c ∈ s := by
  unfold pyStrip at h
  rw [List.mem_reverse] at h
  have h2 := (@List.dropWhile_sublist Char ((s.dropWhile pySpace).reverse) pySpace).subset h
  rw [List.mem_reverse] at h2
  exact (List.dropWhile_sublist pySpace).subset h2

theorem mem_dropPre {c : Char} {s p : List Char} (h : c ∈ dropPre s p) : c ∈ s := by
  unfold dropPre at h
  split at h
  · exact List.mem_of_mem_drop h
  · exact h

theorem mem_strippedRemainder {c : Char} {text w : List Char}
    (h : c ∈ strippedRemainder text w) : c ∈ text :=
  mem_afterFirst (mem_pyStrip (mem_dropPre (mem_dropPre (mem_pyStrip h))))

theorem map_fix {f : Char → Char} :
    ∀ {l : List Char}, (∀ c ∈ l, f c = c) → l.map f = l := by
  intro l
  induction l with
  | nil => intro _; rfl
  | cons a t ih =>
    intro h
    simp only [List.map_cons, h a (List.mem_cons_self a t),
      ih (fun c hc => h c (List.mem_cons_of_mem a hc))]

theorem pyLower_fix_strippedRemainder (ui w : List Char) :
    pyLower (strippedRemainder (pyLower ui) w) = strippedRemainder (pyLower ui) w := by
  apply map_fix
  intro c hc
  obtain ⟨c0, _, rfl⟩ := List.mem_map.mp (mem_strippedRemainder hc)
  exact pyToLower_fix c0

theorem createKws_ne_nil : ∀ x ∈ createKws, x ≠ [] := by decide

/-! ### Claim theorems -/

/-- Claim C1: for every input whose lowercased text contains one of the
keywords `add`, `create`, `make`, `new`, classification yields operation
create (`create_task`) with a title computed from whichever keyword
matched first in the listed priority order (the `find?`): the title is
the substring following the first occurrence of that keyword (witnessed
by the decomposition `pre ++ w ++ afterFirst w _` with no earlier
occurrence inside `pre`), with a leading `task` / `to` and surrounding
whitespace stripped (`createTitle`), falling back to the full raw input
when that remainder is empty — so the title is always non-empty. -/
theorem claim_c1_create_title (ui uid : List Char)
    (h : createKws.any (fun w => pyIn w (pyLower ui)) = true) :
    ∃ w ∈ createKws,
      createKws.find? (fun w => pyIn w (pyLower ui)) = some w ∧
      (∃ pre, pyLower ui = pre ++ w ++ afterFirst w (pyLower ui) ∧ pyIn w pre = false) ∧
      identifyMcpToolAndParams ui uid =
        some ("create_task", mkTitleParams (createTitle (pyLower ui) ui w)) ∧
      createTitle (pyLower ui) ui w ≠ [] := by
  obtain ⟨w, hw, hid⟩ := identify_create ui uid h
  have hmem : w ∈ createKws := List.mem_of_find?_eq_some hw
  have hpw : pyIn w (pyLower ui) = true := by simpa using List.find?_some hw
  have hwne : w ≠ [] := createKws_ne_nil w hmem
  have huine : ui ≠ [] := by
    intro hui
    exact (pyIn_ne_nil hwne hpw) (by rw [hui]; rfl)
  refine ⟨w, hmem, hw, afterFirst_decomp hwne hpw, hid, ?_⟩
  by_cases hrem : strippedRemainder (pyLower ui) w = []
  · simp only [createTitle, if_pos hrem]; exact huine
  · simp only [createTitle, if_neg hrem]; exact hrem

/-- Witness for C1 at the concrete input "add task buy milk". -/
theorem claim_c1_create_title_witness :
    createKws.any (fun w => pyIn w (pyLower (sl ("add task buy milk")))) = true ∧
    (∃ w ∈ createKws,
      createKws.find? (fun w => pyIn w (pyLower (sl ("add task buy milk")))) = some w ∧
      (∃ pre, pyLower (sl ("add task buy milk")) =
          pre ++ w ++ afterFirst w (pyLower (sl ("add task buy milk"))) ∧
        pyIn w pre = false) ∧
      identifyMcpToolAndParams (sl ("add task buy milk")) (sl ("u1")) =
        some ("create_task",
          mkTitleParams (createTitle (pyLower (sl ("add task buy milk")))
            (sl ("add task buy milk")) w)) ∧
      createTitle (pyLower (sl ("add task buy milk"))) (sl ("add task buy milk")) w ≠ []) :=
  ⟨by decide, claim_c1_create_title (sl ("add task buy milk")) (sl ("u1")) (by decide)⟩

/-- Claim C2: the classifier is an ordered first-match chain: whenever a
create keyword is contained in the lowercased input, the result is the
create operation and no later branch fires; in particular an input
containing both "add" and "list" classifies as create. -/
theorem claim_c2_first_match_priority (ui uid : List Char) :
    (createKws.any (fun w => pyIn w (pyLower ui)) = true →
      ∃ p, identifyMcpToolAndParams ui uid = some ("create_task", p)) ∧
    (pyIn (sl ("add")) (pyLower ui) = true → pyIn (sl ("list")) (pyLower ui) = true →
      ∃ p, identifyMcpToolAndParams ui uid = some ("create_task", p)) := by
  constructor
  · intro h
    obtain ⟨w, _, hid⟩ := identify_create ui uid h
    exact ⟨_, hid⟩
  · intro hadd _
    have h : createKws.any (fun w => pyIn w (pyLower ui)) = true :=
      List.any_eq_true.mpr ⟨sl ("add"), by decide, hadd⟩
    obtain ⟨w, _, hid⟩ := identify_create ui uid h
    exact ⟨_, hid⟩

/-- Witness for C2 at the concrete input "add milk and list everything",
which contains both "add" and "list". -/
theorem claim_c2_first_match_priority_witness :
    pyIn (sl ("add")) (pyLower (sl ("add milk and list everything"))) = true ∧
    pyIn (sl ("list")) (pyLower (sl ("add milk and list everything"))) = true ∧
    (∃ p, identifyMcpToolAndParams (sl ("add milk and list everything")) (sl ("u1")) =
      some ("create_task", p)) :=
  ⟨by decide, by decide,
    (claim_c2_first_match_priority (sl ("add milk and list everything")) (sl ("u1"))).2
      (by decide) (by decide)⟩

/-- Claim C10: the create title is taken from the lowercased copy of the
input, so whenever the stripped remainder is non-empty the title is
invariant under lowering (entirely lowercase); only the fallback case
(empty remainder) returns the original raw input with casing preserved. -/
theorem claim_c10_title_lowercased (ui uid : List Char)
    (h : createKws.any (fun w => pyIn w (pyLower ui)) = true) :
    ∃ w, createKws.find? (fun w => pyIn w (pyLower ui)) = some w ∧
      (strippedRemainder (pyLower ui) w ≠ [] →
        identifyMcpToolAndParams ui uid =
          some ("create_task", mkTitleParams (strippedRemainder (pyLower ui) w)) ∧
        pyLower (strippedRemainder (pyLower ui) w) = strippedRemainder (pyLower ui) w) ∧
      (strippedRemainder (pyLower ui) w = [] →
        identifyMcpToolAndParams ui uid = some ("create_task", mkTitleParams ui)) := by
  obtain ⟨w, hw, hid⟩ := identify_create ui uid h
  refine ⟨w, hw, ?_, ?_⟩
  · intro hne
    refine ⟨?_, pyLower_fix_strippedRemainder ui w⟩
    rw [hid]
    simp only [createTitle, if_neg hne]
  · intro he
    rw [hid]
    simp only [createTitle, if_pos he]

/-- Witness for C10 at the concrete input "Add Task Buy MILK": the title
is the lowercased remainder "buy milk". -/
theorem claim_c10_title_lowercased_witness :
    createKws.any (fun w => pyIn w (pyLower (sl ("Add Task Buy MILK")))) = true ∧
    (∃ w, createKws.find? (fun w => pyIn w (pyLower (sl ("Add Task Buy MILK")))) = some w ∧
      (strippedRemainder (pyLower (sl ("Add Task Buy MILK"))) w ≠ [] →
        identifyMcpToolAndParams (sl ("Add Task Buy MILK")) (sl ("u1")) =
          some ("create_task",
            mkTitleParams (strippedRemainder (pyLower (sl ("Add Task Buy MILK"))) w)) ∧
        pyLower (strippedRemainder (pyLower (sl ("Add Task Buy MILK"))) w) =
          strippedRemainder (pyLower (sl ("Add Task Buy MILK"))) w) ∧
      (strippedRemainder (pyLower (sl ("Add Task Buy MILK"))) w = [] →
        identifyMcpToolAndParams (sl ("Add Task Buy MILK")) (sl ("u1")) =
          some ("create_task", mkTitleParams (sl ("Add Task Buy MILK"))))) :=
  ⟨by decide, claim_c10_title_lowercased (sl ("Add Task Buy MILK")) (sl ("u1")) (by decide)⟩

/-- Claim C3: when no create keyword and no list keyword (nor "my tasks")
matches, an input containing "delete" or "remove" classifies as delete
with the first run of decimal digits of the raw input as identifier
(default 1); failing that, an input containing "update", "complete" or
"done" classifies as update with the same identifier extraction and
status "completed".  The last two conjuncts pin down the identifier
extraction: the value is `digitsToNat` of the first digit run, or 1 when
the input has no digits. -/
theorem claim_c3_delete_update (ui uid : List Char)
    (hc : createKws.any (fun w => pyIn w (pyLower ui)) = false)
    (hl : (listKws.any (fun w => pyIn w (pyLower ui)) ||
        pyIn (sl ("my tasks")) (pyLower ui)) = false) :
    (deleteKws.any (fun w => pyIn w (pyLower ui)) = true →
      identifyMcpToolAndParams ui uid =
        some ("delete_task", mkTaskIdParams (firstNumDefault1 ui))) ∧
    (deleteKws.any (fun w => pyIn w (pyLower ui)) = false →
      updateKws.any (fun w => pyIn w (pyLower ui)) = true →
      identifyMcpToolAndParams ui uid =
        some ("update_task", mkTaskIdStatusParams (firstNumDefault1 ui))) ∧
    (firstDigitRun ui = none → firstNumDefault1 ui = 1) ∧
    (∀ ds, firstDigitRun ui = some ds → firstNumDefault1 ui = digitsToNat ds) := by
  refine ⟨?_, ?_, ?_, ?_⟩
  · intro hd
    rw [identify_no_create hc]
    simp [hl, hd]
  · intro hd hu
    rw [identify_no_create hc]
    simp [hl, hd, hu]
  · intro h
    simp [firstNumDefault1, h]
  · intro ds h
    simp [firstNumDefault1, h]

/-- Witness for C3 at the concrete input "delete task 42". -/
theorem claim_c3_delete_update_witness :
    createKws.any (fun w => pyIn w (pyLower (sl ("delete task 42")))) = false ∧
    (listKws.any (fun w => pyIn w (pyLower (sl ("delete task 42")))) ||
      pyIn (sl ("my tasks")) (pyLower (sl ("delete task 42")))) = false ∧
    deleteKws.any (fun w => pyIn w (pyLower (sl ("delete task 42")))) = true ∧
    identifyMcpToolAndParams (sl ("delete task 42")) (sl ("u1")) =
      some ("delete_task", mkTaskIdParams (firstNumDefault1 (sl ("delete task 42")))) ∧
    firstNumDefault1 (sl ("delete task 42")) = 42 :=
  ⟨by decide, by decide, by decide,
    (claim_c3_delete_update (sl ("delete task 42")) (sl ("u1"))
      (by decide) (by decide)).1 (by decide),
    by decide⟩

/-- Every keyword of the four branches, used to state C7. -/
def allKws : List (List Char) := createKws ++ listKws ++ deleteKws ++ updateKws

/-- Claim C7: an input containing no classifier keyword and not the
phrase "my tasks" classifies as `none`; the dispatcher is never invoked
(the outcome of `process` does not depend on the backend response), and
`process` returns the chat-path reply with an empty tool-call list. -/
theorem claim_c7_chat_path (ui uid sp : List Char) (tok : Option (List Char))
    (llm : List Char → Except PyExn (List Char)) (r : List Char)
    (hk : ∀ w ∈ allKws, pyIn w (pyLower ui) = false)
    (hmt : pyIn (sl ("my tasks")) (pyLower ui) = false) :
    identifyMcpToolAndParams ui uid = none ∧
    (∀ resp resp', process sp ui uid tok resp llm = process sp ui uid tok resp' llm) ∧
    (llm (chatPrompt sp ui) = .ok r →
      ∀ resp, process sp ui uid tok resp llm = (r, [])) := by
  have hc : createKws.any (fun w => pyIn w (pyLower ui)) = false := by
    rw [List.any_eq_false]
    intro x hx
    simp [hk x (by simp [allKws, hx])]
  have hlAny : listKws.any (fun w => pyIn w (pyLower ui)) = false := by
    rw [List.any_eq_false]
    intro x hx
    simp [hk x (by simp [allKws, hx])]
  have hd : deleteKws.any (fun w => pyIn w (pyLower ui)) = false := by
    rw [List.any_eq_false]
    intro x hx
    simp [hk x (by simp [allKws, hx])]
  have hu : updateKws.any (fun w => pyIn w (pyLower ui)) = false := by
    rw [List.any_eq_false]
    intro x hx
    simp [hk x (by simp [allKws, hx])]
  have hidn : identifyMcpToolAndParams ui uid = none := by
    rw [identify_no_create hc]
    simp [hlAny, hmt, hd, hu]
  refine ⟨hidn, ?_, ?_⟩
  · intro resp resp'
    simp [process, processInner, hidn]
  · intro hllm resp
    simp [process, processInner, hidn, hllm]

/-- Witness for C7 at the concrete input "hello there" with a concrete
model reply and a concrete backend response. -/
theorem claim_c7_chat_path_witness :
    identifyMcpToolAndParams (sl ("hello there")) (sl ("u1")) = none ∧
    process (sl ("sys")) (sl ("hello there")) (sl ("u1")) none ⟨200, [], some []⟩
      (fun _ => .ok (sl ("hi"))) = (sl ("hi"), []) :=
  ⟨(claim_c7_chat_path (sl ("hello there")) (sl ("u1")) (sl ("sys")) none
      (fun _ => .ok (sl ("hi"))) (sl ("hi")) (by decide) (by decide)).1,
    (claim_c7_chat_path (sl ("hello there")) (sl ("u1")) (sl ("sys")) none
      (fun _ => .ok (sl ("hi"))) (sl ("hi")) (by decide) (by decide)).2.2 rfl
      ⟨200, [], some []⟩⟩

/-- Claim C4: the dispatcher returns the fixed success message exactly
when the success condition of the operation holds, and otherwise the raw
response body: create succeeds on status 200 or 201, update and delete
on status 200 (the latter two require the task identifier the classifier
always supplies). -/
theorem claim_c4_dispatch_status (params : ParamDict) (resp : HttpResponse) :
    ((resp.status = 200 ∨ resp.status = 201) →
      executeMcpTool "create_task" params resp = .ok (sl ("Task added successfully."))) ∧
    (¬ (resp.status = 200 ∨ resp.status = 201) →
      executeMcpTool "create_task" params resp = .ok resp.text) ∧
    (params.task_id.isSome = true →
      (resp.status = 200 →
        executeMcpTool "update_task" params resp = .ok (sl ("Task updated successfully."))) ∧
      (resp.status ≠ 200 →
        executeMcpTool "update_task" params resp = .ok resp.text) ∧
      (resp.status = 200 →
        executeMcpTool "delete_task" params resp = .ok (sl ("Task deleted successfully."))) ∧
      (resp.status ≠ 200 →
        executeMcpTool "delete_task" params resp = .ok resp.text)) := by
  refine ⟨?_, ?_, ?_⟩
  · intro h
    simp [executeMcpTool, h]
  · intro h
    simp [executeMcpTool, h]
  · intro h
    obtain ⟨i, hi⟩ := Option.isSome_iff_exists.mp h
    refine ⟨?_, ?_, ?_, ?_⟩ <;> intro hs <;> simp [executeMcpTool, hi, hs]

/-- Witness for C4: concrete responses, including the specified example of
a create failure with status 400 and body "bad data". -/
theorem claim_c4_dispatch_status_witness :
    executeMcpTool "create_task" (mkTitleParams (sl ("t"))) ⟨201, sl ("ok"), none⟩ =
      .ok (sl ("Task added successfully.")) ∧
    executeMcpTool "create_task" (mkTitleParams (sl ("t"))) ⟨400, sl ("bad data"), none⟩ =
      .ok ((⟨400, sl ("bad data"), none⟩ : HttpResponse).text) ∧
    executeMcpTool "update_task" (mkTaskIdParams 5) ⟨200, sl ("ok"), none⟩ =
      .ok (sl ("Task updated successfully.")) ∧
    executeMcpTool "delete_task" (mkTaskIdParams 5) ⟨404, sl ("not found"), none⟩ =
      .ok ((⟨404, sl ("not found"), none⟩ : HttpResponse).text) :=
  ⟨(claim_c4_dispatch_status (mkTitleParams (sl ("t"))) ⟨201, sl ("ok"), none⟩).1
      (by decide),
   (claim_c4_dispatch_status (mkTitleParams (sl ("t"))) ⟨400, sl ("bad data"), none⟩).2.1
      (by decide),
   ((claim_c4_dispatch_status (mkTaskIdParams 5) ⟨200, sl ("ok"), none⟩).2.2
      (by decide)).1 rfl,
   ((claim_c4_dispatch_status (mkTaskIdParams 5) ⟨404, sl ("not found"), none⟩).2.2
      (by decide)).2.2.2 (by decide)⟩

/-- Counterexample to C5 as stated: for operation "delete_task" with a
parameter mapping that lacks the "task_id" key (here it holds only a
session token, as the dispatcher contract allows), the code evaluates
`params["task_id"]` and raises `KeyError` instead of returning a string;
the `Except.error` value is the raised exception. -/
theorem claim_c5_counterexample :
    executeMcpTool "delete_task" ⟨none, none, none, none, none, some []⟩
      ⟨200, [], some []⟩ = .error (.keyError "task_id") := by rfl

/-- Claim C5 amended: the dispatcher never raises provided the parameter
mapping carries a task identifier whenever the operation is update or
delete, and a 200 response to the list operation has a JSON-decodable
body; every backend error response degrades to the raw response body
text, and an unknown operation name returns the literal
"Unknown action". -/
theorem claim_c5_no_raise_amended (tool_name : String) (params : ParamDict)
    (resp : HttpResponse)
    (htid : tool_name = "update_task" ∨ tool_name = "delete_task" →
      params.task_id.isSome = true)
    (hjson : tool_name = "get_tasks" → resp.status = 200 →
      resp.jsonTasks.isSome = true) :
    (∃ s, executeMcpTool tool_name params resp = .ok s) ∧
    (tool_name ∉ (["create_task", "get_tasks", "update_task", "delete_task"] :
        List String) →
      executeMcpTool tool_name params resp = .ok (sl ("Unknown action"))) ∧
    (tool_name = "create_task" → ¬ (resp.status = 200 ∨ resp.status = 201) →
      executeMcpTool tool_name params resp = .ok resp.text) ∧
    (tool_name = "get_tasks" → resp.status ≠ 200 →
      executeMcpTool tool_name params resp = .ok resp.text) ∧
    ((tool_name = "update_task" ∨ tool_name = "delete_task") → resp.status ≠ 200 →
      executeMcpTool tool_name params resp = .ok resp.text) := by
  refine ⟨?_, ?_, ?_, ?_, ?_⟩
  · unfold executeMcpTool
    by_cases h1 : tool_name = "create_task"
    · rw [if_pos h1]
      exact ⟨_, rfl⟩
    · rw [if_neg h1]
      by_cases h2 : tool_name = "get_tasks"
      · rw [if_pos h2]
        by_cases hs : resp.status = 200
        · rw [if_pos hs]
          obtain ⟨ts, hts⟩ := Option.isSome_iff_exists.mp (hjson h2 hs)
          rw [hts]
          exact ⟨_, rfl⟩
        · rw [if_neg hs]
          exact ⟨_, rfl⟩
      · rw [if_neg h2]
        by_cases h3 : tool_name = "update_task"
        · obtain ⟨i, hi⟩ := Option.isSome_iff_exists.mp (htid (Or.inl h3))
          rw [if_pos h3, hi]
          exact ⟨_, rfl⟩
        · rw [if_neg h3]
          by_cases h4 : tool_name = "delete_task"
          · obtain ⟨i, hi⟩ := Option.isSome_iff_exists.mp (htid (Or.inr h4))
            rw [if_pos h4, hi]
            exact ⟨_, rfl⟩
          · rw [if_neg h4]
            exact ⟨_, rfl⟩
  · intro hn
    have h1 : tool_name ≠ "create_task" := fun h => hn (by simp [h])
    have h2 : tool_name ≠ "get_tasks" := fun h => hn (by simp [h])
    have h3 : tool_name ≠ "update_task" := fun h => hn (by simp [h])
    have h4 : tool_name ≠ "delete_task" := fun h => hn (by simp [h])
    simp [executeMcpTool, h1, h2, h3, h4]
  · intro h1 hs
    simp [executeMcpTool, h1, hs]
  · intro h2 hs
    subst h2
    simp [executeMcpTool, hs]
  · intro h34 hs
    cases h34 with
    | inl h3 =>
      obtain ⟨i, hi⟩ := Option.isSome_iff_exists.mp (htid (Or.inl h3))
      subst h3
      simp [executeMcpTool, hi, hs]
    | inr h4 =>
      obtain ⟨i, hi⟩ := Option.isSome_iff_exists.mp (htid (Or.inr h4))
      subst h4
      simp [executeMcpTool, hi, hs]

/-- Witness for the amended C5 at operation "update_task" with a present
task identifier and a 500 backend response. -/
theorem claim_c5_no_raise_amended_witness :
    (∃ s, executeMcpTool "update_task" (mkTaskIdParams 3) ⟨500, sl ("err"), none⟩ =
      .ok s) ∧
    executeMcpTool "update_task" (mkTaskIdParams 3) ⟨500, sl ("err"), none⟩ =
      .ok ((⟨500, sl ("err"), none⟩ : HttpResponse).text) :=
  ⟨(claim_c5_no_raise_amended "update_task" (mkTaskIdParams 3) ⟨500, sl ("err"), none⟩
      (by decide) (by decide)).1,
   (claim_c5_no_raise_amended "update_task" (mkTaskIdParams 3) ⟨500, sl ("err"), none⟩
      (by decide) (by decide)).2.2.2.2 (Or.inl rfl) (by decide)⟩

/-- Claim C8: every request the dispatcher sends carries an
Authorization header containing exactly `Bearer <token>` when the session
token is present and non-empty, and no Authorization header when the
token is absent or empty. -/
theorem claim_c8_auth_header (tool_name : String) (params : ParamDict)
    (base : List Char) (req : HttpRequest)
    (h : mcpRequest tool_name params base = some req) :
    (params.session_token.getD [] ≠ [] →
      req.headers.lookup "Authorization" =
        some (sl ("Bearer ") ++ params.session_token.getD [])) ∧
    (params.session_token.getD [] = [] →
      req.headers.lookup "Authorization" = none) := by
  have hh : req.headers = mcpHeaders params := by
    unfold mcpRequest at h
    repeat' split at h
    all_goals first
      | exact Option.noConfusion h
      | (injection h with h; subst h; rfl)
  constructor <;> intro ht <;> rw [hh] <;> simp [mcpHeaders, ht, List.lookup]

/-- A parameter dict holding only the session token "tok". -/
def paramsWithTok : ParamDict := ⟨none, none, none, none, none, some (sl ("tok"))⟩

/-- A parameter dict holding only an empty session token. -/
def paramsWithEmptyTok : ParamDict := ⟨none, none, none, none, none, some []⟩

/-- Witness for C8 at a create request with token "tok" and at a create
request with an empty token. -/
theorem claim_c8_auth_header_witness :
    (mcpHeaders paramsWithTok).lookup "Authorization" =
      some (sl ("Bearer ") ++ paramsWithTok.session_token.getD []) ∧
    (mcpHeaders paramsWithEmptyTok).lookup "Authorization" = none :=
  ⟨(claim_c8_auth_header "create_task" paramsWithTok (sl ("b"))
      ⟨"POST", sl ("b") ++ sl ("/api/tasks/"), mcpHeaders paramsWithTok⟩ rfl).1
      (by decide),
   (claim_c8_auth_header "create_task" paramsWithEmptyTok (sl ("b"))
      ⟨"POST", sl ("b") ++ sl ("/api/tasks/"), mcpHeaders paramsWithEmptyTok⟩ rfl).2
      (by decide)⟩

theorem isPrefixOf_append_right (l t : List Char) : l.isPrefixOf (l ++ t) = true := by
  simp [List.isPrefixOf_iff_prefix]

theorem pyIn_self (w : List Char) : pyIn w w = true := by
  cases w with
  | nil => rfl
  | cons c t =>
    have h : (c :: t).isPrefixOf (c :: t) = true := by simp [List.isPrefixOf_iff_prefix]
    simp [pyIn, h]

theorem pyIn_append_self (p w : List Char) : pyIn w (p ++ w) = true := by
  induction p with
  | nil => simpa using pyIn_self w
  | cons c p ih => simp [pyIn, ih]

theorem process_of_error {sp ui uid : List Char} {tok : Option (List Char)}
    {resp : HttpResponse} {llm : List Char → Except PyExn (List Char)} {e : PyExn}
    (h : processInner sp ui uid tok resp llm = .error e) :
    process sp ui uid tok resp llm = (apologyMsgStart ++ PyExn.str e, []) := by
  unfold process
  rw [h]

theorem process_of_ok {sp ui uid : List Char} {tok : Option (List Char)}
    {resp : HttpResponse} {llm : List Char → Except PyExn (List Char)}
    {r : List Char × List ToolCall}
    (h : processInner sp ui uid tok resp llm = .ok r) :
    process sp ui uid tok resp llm = r := by
  unfold process
  rw [h]

theorem processInner_ok_snd {sp ui uid : List Char} {tok : Option (List Char)}
    {resp : HttpResponse} {llm : List Char → Except PyExn (List Char)}
    {r : List Char × List ToolCall}
    (h : processInner sp ui uid tok resp llm = .ok r) :
    (identifyMcpToolAndParams ui uid = none ∧ r.2 = []) ∨
    (∃ tn p, identifyMcpToolAndParams ui uid = some (tn, p) ∧
      r.2 = [⟨tn, setSessionToken p (tok.getD [])⟩]) := by
  unfold processInner at h
  cases hid : identifyMcpToolAndParams ui uid with
  | none =>
    rw [hid] at h
    simp only [] at h
    cases hl : llm (chatPrompt sp ui) with
    | error e => rw [hl] at h; exact Except.noConfusion h
    | ok rr =>
      rw [hl] at h
      injection h with h
      left
      exact ⟨rfl, by rw [← h]⟩
  | some tp =>
    obtain ⟨tn, p⟩ := tp
    rw [hid] at h
    simp only [] at h
    cases hex : executeMcpTool tn (setSessionToken p (tok.getD [])) resp with
    | error e => rw [hex] at h; exact Except.noConfusion h
    | ok tr =>
      rw [hex] at h
      simp only [] at h
      cases hl : llm (toolPrompt ui tr) with
      | error e => rw [hl] at h; exact Except.noConfusion h
      | ok rr =>
        rw [hl] at h
        injection h with h
        right
        exact ⟨tn, p, rfl, by rw [← h]⟩

/-- Claim C6: every exception raised anywhere inside the process flow is
caught at the top level: `process` returns a reply beginning with the
apologetic text and containing the string representation of the
exception, together with an empty tool-call list. -/
theorem claim_c6_exception_apology (sp ui uid : List Char) (tok : Option (List Char))
    (resp : HttpResponse) (llm : List Char → Except PyExn (List Char)) (e : PyExn)
    (h : processInner sp ui uid tok resp llm = .error e) :
    process sp ui uid tok resp llm = (apologyMsgStart ++ PyExn.str e, []) ∧
    apologyMsgStart.isPrefixOf (process sp ui uid tok resp llm).1 = true ∧
    pyIn (PyExn.str e) (process sp ui uid tok resp llm).1 = true := by
  have hp := process_of_error h
  refine ⟨hp, ?_, ?_⟩
  · rw [hp]
    exact isPrefixOf_append_right _ _
  · rw [hp]
    exact pyIn_append_self _ _

/-- Witness for C6: input "hello" follows the chat path and the model
call raises; the reply is the apology containing "boom". -/
theorem claim_c6_exception_apology_witness :
    process (sl ("sys")) (sl ("hello")) (sl ("u1")) none ⟨200, [], some []⟩
      (fun _ => .error (.other (sl ("boom")))) =
      (apologyMsgStart ++ PyExn.str (.other (sl ("boom"))), []) ∧
    apologyMsgStart.isPrefixOf
      (process (sl ("sys")) (sl ("hello")) (sl ("u1")) none ⟨200, [], some []⟩
        (fun _ => .error (.other (sl ("boom"))))).1 = true ∧
    pyIn (PyExn.str (.other (sl ("boom"))))
      (process (sl ("sys")) (sl ("hello")) (sl ("u1")) none ⟨200, [], some []⟩
        (fun _ => .error (.other (sl ("boom"))))).1 = true :=
  claim_c6_exception_apology (sl ("sys")) (sl ("hello")) (sl ("u1")) none
    ⟨200, [], some []⟩ (fun _ => .error (.other (sl ("boom")))) (.other (sl ("boom")))
    (by rfl)

/-- Claim C9: `process` returns at most one tool call: exactly one on
the tool path when no exception escapes, and the empty list when the
classifier yields nothing or an exception is caught. -/
theorem claim_c9_at_most_one_toolcall (sp ui uid : List Char) (tok : Option (List Char))
    (resp : HttpResponse) (llm : List Char → Except PyExn (List Char)) :
    (process sp ui uid tok resp llm).2.length ≤ 1 ∧
    (∀ tn p r, identifyMcpToolAndParams ui uid = some (tn, p) →
      processInner sp ui uid tok resp llm = .ok r →
      (process sp ui uid tok resp llm).2.length = 1) ∧
    (identifyMcpToolAndParams ui uid = none →
      (process sp ui uid tok resp llm).2 = []) ∧
    (∀ e, processInner sp ui uid tok resp llm = .error e →
      (process sp ui uid tok resp llm).2 = []) := by
  refine ⟨?_, ?_, ?_, ?_⟩
  · cases hpi : processInner sp ui uid tok resp llm with
    | error e => rw [process_of_error hpi]; simp
    | ok r =>
      rw [process_of_ok hpi]
      rcases processInner_ok_snd hpi with ⟨_, h2⟩ | ⟨tn, p, _, h2⟩ <;> rw [h2] <;> simp
  · intro tn p r hid hpi
    rw [process_of_ok hpi]
    rcases processInner_ok_snd hpi with ⟨hn, _⟩ | ⟨tn', p', _, h2⟩
    · rw [hid] at hn; exact Option.noConfusion hn
    · rw [h2]; rfl
  · intro hid
    cases hpi : processInner sp ui uid tok resp llm with
    | error e => rw [process_of_error hpi]
    | ok r =>
      rw [process_of_ok hpi]
      rcases processInner_ok_snd hpi with ⟨_, h2⟩ | ⟨tn, p, hs, _⟩
      · exact h2
      · rw [hid] at hs; exact Option.noConfusion hs
  · intro e hpi
    rw [process_of_error hpi]

/-- Witness for C9: the tool path at input "add milk" produces exactly
one tool call. -/
theorem claim_c9_at_most_one_toolcall_witness :
    (process (sl ("sys")) (sl ("add milk")) (sl ("u1")) none ⟨201, sl ("ok"), none⟩
      (fun _ => .ok (sl ("done")))).2.length ≤ 1 ∧
    (process (sl ("sys")) (sl ("add milk")) (sl ("u1")) none ⟨201, sl ("ok"), none⟩
      (fun _ => .ok (sl ("done")))).2.length = 1 :=
  ⟨(claim_c9_at_most_one_toolcall (sl ("sys")) (sl ("add milk")) (sl ("u1")) none
      ⟨201, sl ("ok"), none⟩ (fun _ => .ok (sl ("done")))).1,
   (claim_c9_at_most_one_toolcall (sl ("sys")) (sl ("add milk")) (sl ("u1")) none
      ⟨201, sl ("ok"), none⟩ (fun _ => .ok (sl ("done")))).2.1
      "create_task" (mkTitleParams (sl ("milk")))
      ((sl ("done")),
        [⟨"create_task", setSessionToken (mkTitleParams (sl ("milk"))) []⟩])
      (by rfl) (by rfl)⟩
